import Mathlib

/-!
Verification of the prediction admission / queueing / cache subsystem.

Shallow embedding of the two workers of the repository:

* `backend/lambda/prediction_scheduler/lambda_function.py` (producer /
  admission controller), and
* `backend/lambda/claude_generator/lambda_function.py` (consumer).

Modelling conventions:

* Time instants are integers counting minutes (the source only ever adds
  `timedelta(minutes=30)` and `timedelta(hours=1)` to instants and compares
  instants, so a discrete minute clock is adequate); `NOW()` becomes an
  explicit `now : Int` argument.
* The MySQL tables `generation_queue` and `page_cache` become Lean lists of
  structures; a SQL `UPDATE ... WHERE cond` becomes `List.map` of a function
  acting on rows satisfying the condition, a `SELECT ... WHERE cond` becomes
  `List.filter`, `ORDER BY` becomes `List.mergeSort`, `LIMIT n` becomes
  `List.take n`.
* `hashlib.md5(...).hexdigest()` is an external library call; it is modelled
  as an explicit function argument `md5hex : String → String`, the same
  argument being passed to both embedded copies of `generate_cache_key`.
  Likewise `datetime.fromisoformat` is modelled as an explicit fallible
  parser argument `parseIso : String → Option Int` (`none` = the call raises
  `ValueError`).
* JSON numbers (pattern confidence) are modelled as rationals, JSON strings
  as `String`, absent JSON fields as `Option.none`.  Python truthiness of a
  string (`if s:`) is `s ≠ ""`; `dict.get(k, d)` is `Option.getD`.
* The serialized `components` JSON payload is kept as its abstract value
  (a list of component strings); `json.dumps` at the storage boundary is
  the identity on this abstract value.
-/

namespace Ambia

/-- Status values of a `generation_queue` row. -/
inductive JobStatus where
  | queued
  | processing
  | completed
  | failed
deriving DecidableEq

/-- A pattern candidate as produced by the Llama call: the JSON object with
its optional fields, as consumed by `queue_predictions` and (after the
`json.dumps`/`json.loads` round trip through the `context_data` column) by
the generator. -/
structure Pattern where
  confidence : Option ℚ
  predicted_action : Option String
  predicted_query : Option String
  trigger_time : Option String
deriving DecidableEq

/-- A row of the `generation_queue` table. -/
structure Job where
  id : String
  user_id : String
  job_type : String
  priority : Int
  predicted_need : Option String
  context_data : Pattern
  scheduled_for : Int
  valid_until : Int
  status : JobStatus
  attempts : Nat
  result_cache_key : Option String
  error_message : Option String
  started_at : Option Int
  completed_at : Option Int
  created_at : Int
deriving DecidableEq

/-- A row of the `page_cache` table. -/
structure CacheRow where
  id : String
  user_id : String
  cache_key : String
  cache_type : String
  query : String
  components : List String
  relevance_score : ℚ
  valid_until : Int
  created_at : Int
deriving DecidableEq

/-- Constant `MAX_JOBS_PER_RUN = 10` (claude_generator). -/
def MAX_JOBS_PER_RUN : Nat := 10

/-- Constant `MAX_ATTEMPTS = 3` (claude_generator). -/
def MAX_ATTEMPTS : Nat := 3

/-- Constant `QUEUE_CONFIDENCE = 0.7` (prediction_scheduler). -/
def QUEUE_CONFIDENCE : ℚ := 7 / 10

/-- Python `int()` applied to a number: truncation toward zero. -/
def pyInt (q : ℚ) : Int := if 0 ≤ q then ⌊q⌋ else ⌈q⌉

/-- Python `str.lower()`: character-wise lowercasing.  (Implemented on the
character list so that the kernel can evaluate it; `String.toLower` is
definitionally opaque.) -/
def pyLower (s : String) : String := String.mk (s.data.map Char.toLower)

/-- Python `str.strip()`: remove leading and trailing whitespace. -/
def pyStrip (s : String) : String :=
  String.mk (((s.data.dropWhile Char.isWhitespace).reverse.dropWhile
    Char.isWhitespace).reverse)

/-- Python slicing `s[:n]` on a string. -/
def pySlice (n : Nat) (s : String) : String := String.mk (s.data.take n)

/-- Embedding of `generate_cache_key` as written in
`prediction_scheduler/lambda_function.py` (lines 418-424):
`query.lower().strip()`, then the f-string joining the user id, a colon
and the normalized query, then `hashlib.md5(...).hexdigest()[:16]`. -/
def generate_cache_key_scheduler (md5hex : String → String)
    (user_id query : String) : String :=
  let normalized_query := pyStrip (pyLower query)
  let hash_input := user_id ++ ":" ++ normalized_query
  let hash_value := md5hex hash_input
  pySlice 16 hash_value

/-- Embedding of `generate_cache_key` as written in
`claude_generator/lambda_function.py` (lines 447-453); textually the same
algorithm as the scheduler copy. -/
def generate_cache_key_generator (md5hex : String → String)
    (user_id query : String) : String :=
  let normalized_query := pyStrip (pyLower query)
  let hash_input := user_id ++ ":" ++ normalized_query
  let hash_value := md5hex hash_input
  pySlice 16 hash_value

/-- The row filter of the `SELECT` in `get_pending_jobs`
(claude_generator, lines 210-221): `status = queued AND
scheduled_for <= NOW() AND valid_until > NOW() AND attempts < MAX_ATTEMPTS`. -/
def jobEligible (now : Int) (j : Job) : Bool :=
  decide (j.status = JobStatus.queued) && decide (j.scheduled_for ≤ now) &&
    decide (now < j.valid_until) && decide (j.attempts < MAX_ATTEMPTS)

/-- The `ORDER BY priority DESC, scheduled_for ASC` comparison: row `a` comes
no later than row `b`. -/
def jobLE (a b : Job) : Bool :=
  decide (b.priority < a.priority) ||
    (decide (a.priority = b.priority) && decide (a.scheduled_for ≤ b.scheduled_for))

/-- Embedding of `get_pending_jobs` (claude_generator, lines 203-222): the eligible rows,
ordered by `priority DESC, scheduled_for ASC`, limited to
`MAX_JOBS_PER_RUN`. -/
def get_pending_jobs (now : Int) (table : List Job) : List Job :=
  ((table.filter (jobEligible now)).mergeSort jobLE).take MAX_JOBS_PER_RUN

/-- Effect of one `update_job_status` call (claude_generator, lines 390-414)
on a single row: the `UPDATE ... WHERE id = job_id` touches the row with the
matching id, choosing the column set by the Python branch on
`result_cache_key` truthiness and on whether the new status is
processing. -/
def applyStatusUpdate (now : Int) (job_id : String) (status : JobStatus)
    (result_cache_key : Option String) (j : Job) : Job :=
  if j.id = job_id then
    if result_cache_key.getD "" ≠ "" then
      { j with status := status, result_cache_key := result_cache_key,
               completed_at := some now }
    else if status = JobStatus.processing then
      { j with status := status, started_at := some now }
    else
      { j with status := status }
  else j

/-- Embedding of `update_job_status` (claude_generator, lines 390-414) over the whole
`generation_queue` table. -/
def update_job_status (now : Int) (job_id : String) (status : JobStatus)
    (result_cache_key : Option String) (table : List Job) : List Job :=
  table.map (applyStatusUpdate now job_id status result_cache_key)

/-- Effect of `handle_job_failure` (claude_generator, lines 417-444) on a
single row, given the fetched snapshot `job`: `attempts = job.attempts + 1`;
at `attempts >= MAX_ATTEMPTS` mark failed with a truncated error message and
a completion stamp, otherwise requeue updating only `status` and
`attempts`. -/
def applyFailure (now : Int) (job : Job) (error_message : String) (j : Job) :
    Job :=
  let attempts := job.attempts + 1
  if MAX_ATTEMPTS ≤ attempts then
    if j.id = job.id then
      { j with status := JobStatus.failed, attempts := attempts,
               error_message := some (pySlice 500 error_message),
               completed_at := some now }
    else j
  else
    if j.id = job.id then
      { j with status := JobStatus.queued, attempts := attempts }
    else j

/-- Embedding of `handle_job_failure` (claude_generator, lines 417-444) over the whole
table. -/
def handle_job_failure (now : Int) (job : Job) (error_message : String)
    (table : List Job) : List Job :=
  table.map (applyFailure now job error_message)

/-- The `WHERE user_id = %s AND cache_key = %s` condition on `page_cache`
rows. -/
def cacheRowMatches (user_id cache_key : String) (r : CacheRow) : Bool :=
  decide (r.user_id = user_id) && decide (r.cache_key = cache_key)

/-- The query string the generator derives from the job payload
(claude_generator, line 335):
`predicted_query` when the key is present, else `predicted_action`, else
the empty string. -/
def generatorQuery (p : Pattern) : String :=
  p.predicted_query.getD (p.predicted_action.getD "")

/-- The cache key the consumer will write for a payload pattern. -/
def cacheKeyFor (md5hex : String → String) (user_id : String) (p : Pattern) :
    String :=
  generate_cache_key_generator md5hex user_id (generatorQuery p)

/-- Embedding of `store_in_page_cache` (claude_generator, lines 327-387).
The fresh
`str(uuid4())` is the explicit argument `cache_id`.  The `INSERT` succeeds
when no row with the same `(user_id, cache_key)` exists; otherwise the
database raises `IntegrityError` and the `except` branch runs the in-place
`UPDATE` of `components`, `relevance_score`, `valid_until`, `created_at`.
Returns the new cache plus the returned value: `cache_id` on insert,
`cache_key` on the duplicate-update path. -/
def store_in_page_cache (md5hex : String → String) (now : Int)
    (cache_id user_id : String) (components : List String) (pattern : Pattern)
    (cache : List CacheRow) : List CacheRow × String :=
  let predicted_query := generatorQuery pattern
  let cache_key := generate_cache_key_generator md5hex user_id predicted_query
  let relevance_score := pattern.confidence.getD (7 / 10)
  let valid_until := now + 30
  if cache.any (cacheRowMatches user_id cache_key) then
    (cache.map fun r =>
      if cacheRowMatches user_id cache_key r then
        { r with components := components, relevance_score := relevance_score,
                 valid_until := valid_until, created_at := now }
      else r,
     cache_key)
  else
    ({ id := cache_id, user_id := user_id, cache_key := cache_key,
       cache_type := "prediction", query := predicted_query,
       components := components, relevance_score := relevance_score,
       valid_until := valid_until, created_at := now } :: cache,
     cache_id)

/-- The success path of one `lambda_handler` loop iteration
(claude_generator, lines 112-149), for a job whose generation returned the
non-empty `components`: mark processing, store in `page_cache`, then mark
completed with `result_cache_key` set to the value `store_in_page_cache`
returned.  Result: new queue table, new cache, and that returned value. -/
def process_job_success (md5hex : String → String) (now : Int)
    (cache_id : String) (job : Job) (components : List String)
    (table : List Job) (cache : List CacheRow) :
    List Job × List CacheRow × String :=
  let table1 := update_job_status now job.id JobStatus.processing none table
  let stored := store_in_page_cache md5hex now cache_id job.user_id components
    job.context_data cache
  let table2 := update_job_status now job.id JobStatus.completed (some stored.2)
    table1
  (table2, stored.1, stored.2)

/-- The queue dedup `SELECT` of `queue_predictions` (prediction_scheduler,
lines 350-356): a row with the same `user_id`, `predicted_need` equal to the
`predicted_action` of the candidate, status `queued` and
`scheduled_for > NOW()`.  When the `predicted_action` of the candidate is
absent, Python passes `None` and
the SQL equality `predicted_need = NULL` matches no row. -/
def queue_dedup_hit (now : Int) (user_id : String)
    (predicted_action : Option String) (queue : List Job) : Bool :=
  match predicted_action with
  | none => false
  | some a => queue.any fun j =>
      decide (j.user_id = user_id) && decide (j.predicted_need = some a) &&
        decide (j.status = JobStatus.queued) && decide (now < j.scheduled_for)

/-- The cache dedup `SELECT` of `queue_predictions` (prediction_scheduler,
lines 365-371): a live row under the fingerprint of the
`predicted_query` of the candidate. -/
def cache_dedup_hit (md5hex : String → String) (now : Int) (user_id : String)
    (query : String) (cache : List CacheRow) : Bool :=
  let cache_key := generate_cache_key_scheduler md5hex user_id query
  cache.any fun r =>
    decide (r.user_id = user_id) && decide (r.cache_key = cache_key) &&
      decide (now < r.valid_until)

/-- The two tables the scheduler touches. -/
structure SchedState where
  queue : List Job
  cache : List CacheRow
deriving DecidableEq

/-- The trigger-time computation of `queue_predictions`
(prediction_scheduler, lines 342-347): if the `trigger_time` field of the
candidate is
truthy, call `datetime.fromisoformat` on it after replacing `Z` with
`+00:00` (`none` = `ValueError`), otherwise default to now + 30 minutes. -/
def parsedTrigger (parseIso : String → Option Int) (now : Int) (p : Pattern) :
    Option Int :=
  let trigger_time_str := p.trigger_time.getD ""
  if trigger_time_str ≠ "" then
    parseIso (trigger_time_str.replace "Z" "+00:00")
  else
    some (now + 30)

/-- One iteration of the `for pattern in patterns` loop of
`queue_predictions` (prediction_scheduler, lines 332-413), for a fresh
insert id `queue_id`: confidence gate, trigger-time parse (a `ValueError`
is caught by the enclosing `except`, which rolls back and continues, so the
candidate is dropped), queue dedup, cache dedup (only when
`predicted_query` is truthy), then the `INSERT` of the new work item.
`attempts` is not among the inserted columns; the schema (outside this
repository) defaults it, per the spec, to 0. -/
def queue_prediction_step (parseIso : String → Option Int)
    (md5hex : String → String) (now : Int) (queue_id user_id : String)
    (p : Pattern) (st : SchedState) : SchedState :=
  let confidence := p.confidence.getD 0
  if confidence < QUEUE_CONFIDENCE then st
  else
    match parsedTrigger parseIso now p with
    | none => st
    | some trigger_time =>
      if queue_dedup_hit now user_id p.predicted_action st.queue then st
      else
        let predicted_query := p.predicted_query.getD ""
        if predicted_query ≠ "" ∧
            cache_dedup_hit md5hex now user_id predicted_query st.cache = true
        then st
        else
          { st with queue :=
              { id := queue_id, user_id := user_id, job_type := "prediction",
                priority := pyInt (confidence * 100),
                predicted_need := p.predicted_action, context_data := p,
                scheduled_for := trigger_time,
                valid_until := trigger_time + 60,
                status := JobStatus.queued, attempts := 0,
                result_cache_key := none, error_message := none,
                started_at := none, completed_at := none,
                created_at := now } :: st.queue }

/-- Embedding of `queue_predictions` (prediction_scheduler, lines 324-415)
over a list of
candidates, each paired with the fresh id `str(uuid4())` drawn for it. -/
def queue_predictions (parseIso : String → Option Int)
    (md5hex : String → String) (now : Int) (user_id : String)
    (candidates : List (String × Pattern)) (st : SchedState) : SchedState :=
  candidates.foldl
    (fun s c => queue_prediction_step parseIso md5hex now c.1 user_id c.2 s) st

/-- One observable mutation of `generation_queue` by the consumer, as
performed by one iteration of the `lambda_handler` loop (claude_generator,
lines 106-159) on a job taken from `get_pending_jobs`: claim only (a run
that crashes before resolving), claim then complete, or claim then the
failure transition with the fetched snapshot. -/
inductive ConsumerStep (now : Int) (table : List Job) : List Job → Prop where
  | claim (j : Job) (h : j ∈ get_pending_jobs now table) :
      ConsumerStep now table
        (update_job_status now j.id JobStatus.processing none table)
  | complete (j : Job) (key : String) (hkey : key ≠ "")
      (h : j ∈ get_pending_jobs now table) :
      ConsumerStep now table
        (update_job_status now j.id JobStatus.completed (some key)
          (update_job_status now j.id JobStatus.processing none table))
  | fail (j : Job) (msg : String) (h : j ∈ get_pending_jobs now table) :
      ConsumerStep now table
        (handle_job_failure now j msg
          (update_job_status now j.id JobStatus.processing none table))

/-- Any finite sequence of consumer operations, each at its own clock
reading. -/
def ConsumerSteps (table table' : List Job) : Prop :=
  Relation.ReflTransGen (fun a b => ∃ now, ConsumerStep now a b) table table'

/-- An empty candidate payload; the concrete rows below use it. -/
def patNone : Pattern :=
  { confidence := none, predicted_action := none, predicted_query := none,
    trigger_time := none }

/-- A concrete queued row all concrete examples below start from:
priority 90, due at time 0, valid until time 100, no attempts yet. -/
def baseJob : Job :=
  { id := "a", user_id := "u", job_type := "prediction", priority := 90,
    predicted_need := none, context_data := patNone, scheduled_for := 0,
    valid_until := 100, status := JobStatus.queued, attempts := 0,
    result_cache_key := none, error_message := none, started_at := none,
    completed_at := none, created_at := 0 }

/-- Concrete queued row used in witnesses: priority 90, due at time 0. -/
def jobA : Job := baseJob

/-- Concrete queued row: priority 50, due at time 0. -/
def jobB : Job :=
  { jobA with id := "b", priority := 50 }

/-- Concrete queued row: priority 90, due at time -1. -/
def jobC : Job :=
  { jobA with id := "c", scheduled_for := -1 }

/-- Concrete expired row: `valid_until` already passed at time 0. -/
def jobExpired : Job :=
  { jobA with id := "x", priority := 1000, scheduled_for := -10,
              valid_until := 0 }

/-- Concrete row that already finished: status completed. -/
def jobDone : Job :=
  { baseJob with id := "done", status := JobStatus.completed,
                 completed_at := some 3 }

/-- Concrete row for the C6 witness. -/
def jobRetry : Job := { baseJob with id := "f" }

/-- A fixed stand-in digest for the external md5 hex digest in concrete
examples: a constant 32-character hex string. -/
def md5Const : String → String := fun _ => "0123456789abcdef0123456789abcdef"

/-- Concrete candidate payload used by the cache witnesses: a pattern whose
predicted query is movies tonight. -/
def patMovies : Pattern :=
  { confidence := some (1 / 2), predicted_action := some "ask about movies",
    predicted_query := some "movies tonight", trigger_time := none }

/-- Concrete claimed job whose payload is the movies pattern. -/
def jobGen : Job := { baseJob with id := "g", context_data := patMovies }

/-- Candidate with confidence 0.85 and no stated trigger time. -/
def p85 : Pattern :=
  { confidence := some (17 / 20), predicted_action := some "ask about movies",
    predicted_query := none, trigger_time := none }

/-- Candidate with confidence 0.855 and no stated trigger time. -/
def p855 : Pattern :=
  { confidence := some (171 / 200),
    predicted_action := some "ask about movies",
    predicted_query := none, trigger_time := none }

/-- Candidate whose stated trigger time does not parse. -/
def pBadTrig : Pattern :=
  { confidence := some (17 / 20), predicted_action := some "ask about movies",
    predicted_query := none, trigger_time := some "not-a-date" }

/-- Candidate with no `predicted_query` field at all. -/
def pNoQuery : Pattern :=
  { confidence := some (17 / 20), predicted_action := some "ask about movies",
    predicted_query := none, trigger_time := none }

/-- A live cache row sitting under exactly the key the consumer will derive
for `pNoQuery` (owner u, query falling back to the predicted action). -/
def liveRow : CacheRow :=
  { id := "cr", user_id := "u", cache_key := "0123456789abcdef",
    cache_type := "prediction", query := "ask about movies",
    components := ["x"], relevance_score := 1, valid_until := 1000,
    created_at := 0 }

/-- Claim C1: the cache fingerprint is deterministic and the producer-side
and consumer-side implementations are extensionally equal: for every hash
function, owner and query, both copies compute the lowercase-trimmed query,
concatenate as owner-colon-query, hash, and take a 16-character prefix, and
two calls agreeing on the normalized input yield the same key. -/
theorem cache_key_producer_consumer_agree :
    (∀ (md5hex : String → String) (u q : String),
      generate_cache_key_scheduler md5hex u q =
        generate_cache_key_generator md5hex u q) ∧
    (∀ (md5hex : String → String) (u q₁ q₂ : String),
      pyStrip (pyLower q₁) = pyStrip (pyLower q₂) →
      generate_cache_key_scheduler md5hex u q₁ =
        generate_cache_key_generator md5hex u q₂) := by
  refine ⟨fun _ _ _ => rfl, fun md5hex u q₁ q₂ h => ?_⟩
  simp only [generate_cache_key_scheduler, generate_cache_key_generator, h]

/-- Concrete check of C1: the two copies agree on a differently-cased,
differently-padded query pair that normalizes identically. -/
theorem cache_key_producer_consumer_agree_witness :
    pyStrip (pyLower "  Movies Tonight ") = pyStrip (pyLower "movies tonight") ∧
    generate_cache_key_scheduler (fun s => s) "user-1" "  Movies Tonight " =
      generate_cache_key_generator (fun s => s) "user-1" "movies tonight" :=
  ⟨by decide,
   cache_key_producer_consumer_agree.2 (fun s => s) "user-1"
     "  Movies Tonight " "movies tonight" (by decide)⟩

lemma jobLE_trans (a b c : Job) (hab : jobLE a b = true)
    (hbc : jobLE b c = true) : jobLE a c = true := by
  simp only [jobLE, Bool.or_eq_true, Bool.and_eq_true, decide_eq_true_eq]
    at hab hbc ⊢
  omega

lemma jobLE_total (a b : Job) : (jobLE a b || jobLE b a) = true := by
  simp only [jobLE, Bool.or_eq_true, Bool.and_eq_true, decide_eq_true_eq]
  omega

lemma mem_get_pending_jobs {now : Int} {table : List Job} {j : Job}
    (h : j ∈ get_pending_jobs now table) :
    j ∈ table ∧ jobEligible now j = true := by
  have h1 : j ∈ (table.filter (jobEligible now)).mergeSort jobLE :=
    List.take_subset _ _ h
  have h2 : j ∈ table.filter (jobEligible now) := List.mem_mergeSort.mp h1
  exact List.mem_filter.mp h2

lemma jobEligible_iff {now : Int} {j : Job} :
    jobEligible now j = true ↔
      j.status = JobStatus.queued ∧ j.scheduled_for ≤ now ∧
        now < j.valid_until ∧ j.attempts < MAX_ATTEMPTS := by
  simp [jobEligible, Bool.and_eq_true, decide_eq_true_eq, and_assoc]

/-- Claim C2: the consumer claim selection returns exactly the rows with
status queued, `scheduled_for <= now`, `valid_until > now` and
`attempts < MAX_ATTEMPTS` (exactly, whenever at most `MAX_JOBS_PER_RUN`
rows qualify), ordered by priority descending then `scheduled_for`
ascending, capped at `MAX_JOBS_PER_RUN = 10` rows; in particular a row whose
`valid_until` is not in the future is never selected. -/
theorem get_pending_jobs_spec (now : Int) (table : List Job) :
    (∀ j ∈ get_pending_jobs now table,
      j.status = JobStatus.queued ∧ j.scheduled_for ≤ now ∧
        now < j.valid_until ∧ j.attempts < MAX_ATTEMPTS) ∧
    (get_pending_jobs now table).Pairwise (fun a b => jobLE a b = true) ∧
    (get_pending_jobs now table).length ≤ MAX_JOBS_PER_RUN ∧
    ((table.filter (jobEligible now)).length ≤ MAX_JOBS_PER_RUN →
      ∀ j, j ∈ get_pending_jobs now table ↔
        j ∈ table ∧ jobEligible now j = true) ∧
    (∀ j ∈ get_pending_jobs now table, ¬ j.valid_until ≤ now) := by
  refine ⟨?_, ?_, ?_, ?_, ?_⟩
  · intro j hj
    exact jobEligible_iff.mp (mem_get_pending_jobs hj).2
  · exact List.Pairwise.sublist (List.take_sublist _ _)
      (List.sorted_mergeSort jobLE_trans jobLE_total _)
  · exact List.length_take_le _ _
  · intro hlen j
    have hsortlen : ((table.filter (jobEligible now)).mergeSort jobLE).length
        ≤ MAX_JOBS_PER_RUN := by
      rwa [List.length_mergeSort]
    constructor
    · exact fun h => mem_get_pending_jobs h
    · rintro ⟨hmem, helig⟩
      unfold get_pending_jobs
      rw [List.take_of_length_le hsortlen]
      exact List.mem_mergeSort.mpr (List.mem_filter.mpr ⟨hmem, helig⟩)
  · intro j hj
    have := jobEligible_iff.mp (mem_get_pending_jobs hj).2
    omega

/-- Concrete check of C2: on a table with three eligible rows and one
expired row, every selected row is queued and unexpired, at most ten rows
are selected, the eligible row of priority 90 is selected, and the expired
row is not, despite its priority 1000. -/
theorem get_pending_jobs_spec_witness :
    (∀ j ∈ get_pending_jobs 0 [jobA, jobB, jobC, jobExpired],
      j.status = JobStatus.queued ∧ ¬ j.valid_until ≤ 0) ∧
    (get_pending_jobs 0 [jobA, jobB, jobC, jobExpired]).length ≤ 10 ∧
    jobA ∈ get_pending_jobs 0 [jobA, jobB, jobC, jobExpired] ∧
    jobExpired ∉ get_pending_jobs 0 [jobA, jobB, jobC, jobExpired] := by
  refine ⟨?_, ?_, ?_, ?_⟩
  · intro j hj
    refine ⟨((get_pending_jobs_spec 0 _).1 j hj).1, ?_⟩
    exact (get_pending_jobs_spec 0 _).2.2.2.2 j hj
  · exact (get_pending_jobs_spec 0 _).2.2.1
  · exact (((get_pending_jobs_spec 0 _).2.2.2.1 (by decide) jobA).mpr
      (by decide))
  · intro hmem
    have := ((get_pending_jobs_spec 0 _).1 jobExpired hmem).2.2.1
    simp [jobExpired, jobA] at this

/-- Claim C3, evaluated at the failing input: the mark-processing `UPDATE`
of `update_job_status` is guarded only by `WHERE id = %s`, with no condition
on the prior status; applied to a row whose status is `completed`, it still
sets the status to `processing`.  The spec requires the claim step to be a
conditional update guarded by the expected prior status (the one mandatory
concurrency control point), so the missing guard is a bug in the code, not
in the claim. -/
theorem update_job_status_unguarded :
    update_job_status 5 "done" JobStatus.processing none [jobDone] =
      [{ jobDone with status := JobStatus.processing,
                      started_at := some 5 }] ∧
    jobDone.status = JobStatus.completed := by
  decide

/-- Claim C6: a failure whose incremented attempt count stays below
`MAX_ATTEMPTS` rewrites the failed row to status queued with
`attempts = job.attempts + 1` and touches nothing else: every other column
of the row, in particular `scheduled_for` and `valid_until`, is copied
unchanged, and rows with other ids are untouched. -/
theorem handle_job_failure_requeue_frame (now : Int) (job : Job)
    (msg : String) (table : List Job)
    (h : job.attempts + 1 < MAX_ATTEMPTS) :
    handle_job_failure now job msg table =
      table.map fun r =>
        if r.id = job.id then
          { r with status := JobStatus.queued, attempts := job.attempts + 1 }
        else r := by
  have hlt : ¬ MAX_ATTEMPTS ≤ job.attempts + 1 := by omega
  unfold handle_job_failure
  refine List.map_congr_left fun r _ => ?_
  simp [applyFailure, hlt]

/-- Concrete check of C6: failing a first attempt requeues the row with
attempt count 1 and leaves `scheduled_for`/`valid_until` untouched. -/
theorem handle_job_failure_requeue_frame_witness :
    jobRetry.attempts + 1 < MAX_ATTEMPTS ∧
    handle_job_failure 7 jobRetry "boom" [jobRetry, jobDone] =
      [{ jobRetry with status := JobStatus.queued, attempts := 1 }, jobDone] := by
  refine ⟨by decide, ?_⟩
  rw [handle_job_failure_requeue_frame 7 jobRetry "boom" [jobRetry, jobDone]
    (by decide)]
  decide

lemma cacheRowMatches_update (u k : String) (comps : List String) (q : ℚ)
    (v n : Int) (r : CacheRow) :
    cacheRowMatches u k
      { r with components := comps, relevance_score := q,
               valid_until := v, created_at := n } =
      cacheRowMatches u k r := rfl

/-- On a key conflict, `store_in_page_cache` runs the in-place `UPDATE` and
returns the cache key. -/
lemma store_in_page_cache_conflict (md5hex : String → String) (now : Int)
    (cid uid : String) (comps : List String) (p : Pattern)
    (cache : List CacheRow)
    (h : cache.any (cacheRowMatches uid (cacheKeyFor md5hex uid p)) = true) :
    store_in_page_cache md5hex now cid uid comps p cache =
      (cache.map fun r =>
        if cacheRowMatches uid (cacheKeyFor md5hex uid p) r then
          { r with components := comps,
                   relevance_score := p.confidence.getD (7 / 10),
                   valid_until := now + 30, created_at := now }
        else r,
       cacheKeyFor md5hex uid p) := by
  unfold cacheKeyFor at h
  simp only [store_in_page_cache, cacheKeyFor]
  rw [if_pos h]

/-- Without a key conflict, `store_in_page_cache` inserts a fresh row and
returns the fresh row id. -/
lemma store_in_page_cache_fresh (md5hex : String → String) (now : Int)
    (cid uid : String) (comps : List String) (p : Pattern)
    (cache : List CacheRow)
    (h : cache.any (cacheRowMatches uid (cacheKeyFor md5hex uid p)) = false) :
    store_in_page_cache md5hex now cid uid comps p cache =
      ({ id := cid, user_id := uid,
         cache_key := cacheKeyFor md5hex uid p,
         cache_type := "prediction", query := generatorQuery p,
         components := comps,
         relevance_score := p.confidence.getD (7 / 10),
         valid_until := now + 30, created_at := now } :: cache,
       cid) := by
  unfold cacheKeyFor at h
  simp only [store_in_page_cache, cacheKeyFor, generatorQuery] at h ⊢
  rw [if_neg (by simp [h])]

/-- The fresh row inserted by `store_in_page_cache` matches its own key. -/
lemma cacheRowMatches_fresh (md5hex : String → String) (now : Int)
    (cid uid : String) (comps : List String) (p : Pattern) :
    cacheRowMatches uid (cacheKeyFor md5hex uid p)
      { id := cid, user_id := uid,
        cache_key := cacheKeyFor md5hex uid p,
        cache_type := "prediction", query := generatorQuery p,
        components := comps,
        relevance_score := p.confidence.getD (7 / 10),
        valid_until := now + 30, created_at := now } = true := by
  simp [cacheRowMatches]

/-- After one `store_in_page_cache` write, the count of rows matching the
written key is one more than before when the insert went through (no
conflict), and unchanged when the duplicate-update path ran; in both cases
every matching row of the result carries the written values. -/
lemma store_in_page_cache_effect (md5hex : String → String) (now : Int)
    (cid uid : String) (comps : List String) (p : Pattern)
    (cache : List CacheRow) :
    ((store_in_page_cache md5hex now cid uid comps p cache).1.countP
        (cacheRowMatches uid (cacheKeyFor md5hex uid p)) =
      if cache.any (cacheRowMatches uid (cacheKeyFor md5hex uid p)) then
        cache.countP (cacheRowMatches uid (cacheKeyFor md5hex uid p))
      else
        cache.countP (cacheRowMatches uid (cacheKeyFor md5hex uid p)) + 1) ∧
    (∀ r ∈ (store_in_page_cache md5hex now cid uid comps p cache).1,
      cacheRowMatches uid (cacheKeyFor md5hex uid p) r = true →
        r.components = comps ∧
        r.relevance_score = p.confidence.getD (7 / 10) ∧
        r.valid_until = now + 30 ∧ r.created_at = now) := by
  by_cases hany : cache.any (cacheRowMatches uid (cacheKeyFor md5hex uid p))
  · rw [store_in_page_cache_conflict md5hex now cid uid comps p cache hany,
      if_pos hany]
    constructor
    · simp only [List.countP_map]
      refine List.countP_congr fun r _ => ?_
      by_cases hr : cacheRowMatches uid (cacheKeyFor md5hex uid p) r
      · simp [Function.comp, hr, cacheRowMatches_update]
      · simp only [Bool.not_eq_true] at hr
        simp [Function.comp, hr]
    · intro r hr hmatch
      obtain ⟨r₀, hr₀, rfl⟩ := List.mem_map.mp hr
      by_cases h₀ : cacheRowMatches uid (cacheKeyFor md5hex uid p) r₀
      · simp [h₀]
      · simp only [Bool.not_eq_true] at h₀
        rw [h₀] at hmatch
        simp only [Bool.false_eq_true, if_false] at hmatch
        rw [hmatch] at h₀
        simp at h₀
  · simp only [Bool.not_eq_true] at hany
    have hzero : cache.countP (cacheRowMatches uid (cacheKeyFor md5hex uid p))
        = 0 := by
      rw [List.countP_eq_zero]
      intro r hr hm
      have : cache.any (cacheRowMatches uid (cacheKeyFor md5hex uid p)) =
          true := List.any_eq_true.mpr ⟨r, hr, hm⟩
      rw [hany] at this
      exact Bool.false_ne_true this
    rw [store_in_page_cache_fresh md5hex now cid uid comps p cache hany, hany]
    constructor
    · simp only [Bool.false_eq_true, if_false]
      rw [List.countP_cons_of_pos _ _ (cacheRowMatches_fresh md5hex now cid
        uid comps p), hzero]
    · intro r hr hmatch
      rcases List.mem_cons.mp hr with rfl | hr'
      · exact ⟨rfl, rfl, rfl, rfl⟩
      · exact absurd hmatch (by
          intro hm
          have : cache.any (cacheRowMatches uid (cacheKeyFor md5hex uid p)) =
              true := List.any_eq_true.mpr ⟨r, hr', hm⟩
          rw [hany] at this
          exact Bool.false_ne_true this)

/-- Claim C4: cache writes are last-writer-wins.  Starting from a cache
satisfying the `(owner, key)` uniqueness invariant (at most one row under
the key), two consecutive `store_in_page_cache` writes deriving the same key
leave exactly one row under that `(owner, key)`, and that row carries the
content, relevance score, validity window and (refreshed) creation
timestamp of the second write. -/
theorem cache_write_last_writer_wins (md5hex : String → String)
    (now₁ now₂ : Int) (cid₁ cid₂ uid : String) (comps₁ comps₂ : List String)
    (p₁ p₂ : Pattern) (cache : List CacheRow)
    (hkey : cacheKeyFor md5hex uid p₁ = cacheKeyFor md5hex uid p₂)
    (huniq : cache.countP
      (cacheRowMatches uid (cacheKeyFor md5hex uid p₂)) ≤ 1) :
    ((store_in_page_cache md5hex now₂ cid₂ uid comps₂ p₂
        (store_in_page_cache md5hex now₁ cid₁ uid comps₁ p₁ cache).1).1.countP
      (cacheRowMatches uid (cacheKeyFor md5hex uid p₂)) = 1) ∧
    (∀ r ∈ (store_in_page_cache md5hex now₂ cid₂ uid comps₂ p₂
        (store_in_page_cache md5hex now₁ cid₁ uid comps₁ p₁ cache).1).1,
      cacheRowMatches uid (cacheKeyFor md5hex uid p₂) r = true →
        r.components = comps₂ ∧
        r.relevance_score = p₂.confidence.getD (7 / 10) ∧
        r.valid_until = now₂ + 30 ∧ r.created_at = now₂) := by
  have e₁ := store_in_page_cache_effect md5hex now₁ cid₁ uid comps₁ p₁ cache
  rw [hkey] at e₁
  have h₁ : (store_in_page_cache md5hex now₁ cid₁ uid comps₁ p₁
      cache).1.countP (cacheRowMatches uid (cacheKeyFor md5hex uid p₂)) = 1 := by
    rcases e₁ with ⟨e₁c, -⟩
    by_cases hany : cache.any (cacheRowMatches uid (cacheKeyFor md5hex uid p₂))
    · have hpos : 0 < cache.countP
          (cacheRowMatches uid (cacheKeyFor md5hex uid p₂)) := by
        rcases List.any_eq_true.mp hany with ⟨r, hr, hm⟩
        exact List.countP_pos_iff.mpr ⟨r, hr, hm⟩
      rw [e₁c, if_pos hany]
      omega
    · simp only [Bool.not_eq_true] at hany
      have hzero : cache.countP
          (cacheRowMatches uid (cacheKeyFor md5hex uid p₂)) = 0 := by
        rw [List.countP_eq_zero]
        intro r hr hm
        have : cache.any (cacheRowMatches uid (cacheKeyFor md5hex uid p₂)) =
            true := List.any_eq_true.mpr ⟨r, hr, hm⟩
        rw [hany] at this
        exact Bool.false_ne_true this
      rw [e₁c, hany]
      simp [hzero]
  have hany₁ : (store_in_page_cache md5hex now₁ cid₁ uid comps₁ p₁
      cache).1.any (cacheRowMatches uid (cacheKeyFor md5hex uid p₂)) = true := by
    have hpos : 0 < (store_in_page_cache md5hex now₁ cid₁ uid comps₁ p₁
        cache).1.countP (cacheRowMatches uid (cacheKeyFor md5hex uid p₂)) := by
      omega
    rcases List.countP_pos_iff.mp hpos with ⟨r, hr, hm⟩
    exact List.any_eq_true.mpr ⟨r, hr, hm⟩
  have e₂ := store_in_page_cache_effect md5hex now₂ cid₂ uid comps₂ p₂
    (store_in_page_cache md5hex now₁ cid₁ uid comps₁ p₁ cache).1
  refine ⟨?_, e₂.2⟩
  rw [e₂.1, if_pos hany₁, h₁]

/-- Concrete check of C4: writing twice under the same derived key into an
initially empty cache leaves exactly one row under the key, holding the
content of the second write. -/
theorem cache_write_last_writer_wins_witness :
    ((store_in_page_cache md5Const 40 "cid-2" "u" ["second"] patMovies
        (store_in_page_cache md5Const 10 "cid-1" "u" ["first"] patMovies
          []).1).1.countP
      (cacheRowMatches "u" (cacheKeyFor md5Const "u" patMovies)) = 1) ∧
    (∀ r ∈ (store_in_page_cache md5Const 40 "cid-2" "u" ["second"] patMovies
        (store_in_page_cache md5Const 10 "cid-1" "u" ["first"] patMovies
          []).1).1,
      cacheRowMatches "u" (cacheKeyFor md5Const "u" patMovies) r = true →
        r.components = ["second"] ∧
        r.relevance_score = patMovies.confidence.getD (7 / 10) ∧
        r.valid_until = 70 ∧ r.created_at = 40) := by
  have h := cache_write_last_writer_wins md5Const 10 40 "cid-1" "cid-2" "u"
    ["first"] ["second"] patMovies patMovies [] rfl (by decide)
  exact ⟨h.1, h.2⟩

/-- Claim C5, refuted at a concrete input: on a fresh insert (no key
conflict) the value returned by `store_in_page_cache` — and therefore the
`result_cache_key` stored on the completed row — is the fresh `page_cache`
row id (the `str(uuid4())` value), not the 16-character fingerprint; the
two differ at this input.  Only the conflict-update path returns the
fingerprint. -/
theorem process_job_success_result_key_counterexample :
    (process_job_success md5Const 5 "3f2a0c1d-8b4e-4f6a-9c7d-2e5b8a1f4c6e"
        jobGen ["comp"] [jobGen] []).2.2 =
      "3f2a0c1d-8b4e-4f6a-9c7d-2e5b8a1f4c6e" ∧
    cacheKeyFor md5Const jobGen.user_id jobGen.context_data =
      "0123456789abcdef" ∧
    (process_job_success md5Const 5 "3f2a0c1d-8b4e-4f6a-9c7d-2e5b8a1f4c6e"
        jobGen ["comp"] [jobGen] []).2.2 ≠
      cacheKeyFor md5Const jobGen.user_id jobGen.context_data ∧
    (∀ r ∈ (process_job_success md5Const 5
        "3f2a0c1d-8b4e-4f6a-9c7d-2e5b8a1f4c6e" jobGen ["comp"] [jobGen]
        []).1,
      r.status = JobStatus.completed ∧
        r.result_cache_key = some "3f2a0c1d-8b4e-4f6a-9c7d-2e5b8a1f4c6e") := by
  decide

/-- Claim C5 as amended: for a claimed job whose generation returned the
non-empty `components`, the consumer upserts a cache row under the
fingerprint of (owner, predicted query-or-action) carrying the confidence
of the candidate as relevance score and `valid_until = now + 30`, and marks the
job completed — but the stored `result_cache_key` is the value
`store_in_page_cache` returned: the fingerprint only on the
conflict-update path, and the fresh cache row id on the insert path. -/
theorem process_job_success_spec (md5hex : String → String) (now : Int)
    (cache_id : String) (job : Job) (comps : List String) (table : List Job)
    (cache : List CacheRow) (c : ℚ)
    (hcomps : comps ≠ [])
    (hconf : job.context_data.confidence = some c)
    (hcid : cache_id ≠ "")
    (hkeyne : cacheKeyFor md5hex job.user_id job.context_data ≠ "") :
    (∃ r ∈ (process_job_success md5hex now cache_id job comps table
        cache).2.1,
      cacheRowMatches job.user_id
          (cacheKeyFor md5hex job.user_id job.context_data) r = true ∧
        r.components = comps ∧ r.relevance_score = c ∧
        r.valid_until = now + 30) ∧
    ((process_job_success md5hex now cache_id job comps table cache).2.2 =
      if cache.any (cacheRowMatches job.user_id
          (cacheKeyFor md5hex job.user_id job.context_data)) then
        cacheKeyFor md5hex job.user_id job.context_data
      else cache_id) ∧
    ((process_job_success md5hex now cache_id job comps table cache).1 =
      table.map fun r =>
        if r.id = job.id then
          { r with status := JobStatus.completed,
                   result_cache_key := some ((process_job_success md5hex now
                     cache_id job comps table cache).2.2),
                   started_at := some now, completed_at := some now }
        else r) := by
  have heff := store_in_page_cache_effect md5hex now cache_id job.user_id
    comps job.context_data cache
  have hret : (store_in_page_cache md5hex now cache_id job.user_id comps
      job.context_data cache).2 =
      if cache.any (cacheRowMatches job.user_id
          (cacheKeyFor md5hex job.user_id job.context_data)) then
        cacheKeyFor md5hex job.user_id job.context_data
      else cache_id := by
    by_cases hany : cache.any (cacheRowMatches job.user_id
        (cacheKeyFor md5hex job.user_id job.context_data))
    · rw [store_in_page_cache_conflict md5hex now cache_id job.user_id comps
        job.context_data cache hany, if_pos hany]
    · simp only [Bool.not_eq_true] at hany
      rw [store_in_page_cache_fresh md5hex now cache_id job.user_id comps
        job.context_data cache hany, hany]
      simp
  have hretne : (store_in_page_cache md5hex now cache_id job.user_id comps
      job.context_data cache).2 ≠ "" := by
    rw [hret]
    by_cases hany : cache.any (cacheRowMatches job.user_id
        (cacheKeyFor md5hex job.user_id job.context_data)) <;>
      simp [hany, hcid, hkeyne]
  refine ⟨?_, ?_, ?_⟩
  · -- a matching cache row with the written values exists
    have hpos : 0 < (store_in_page_cache md5hex now cache_id job.user_id
        comps job.context_data cache).1.countP
        (cacheRowMatches job.user_id
          (cacheKeyFor md5hex job.user_id job.context_data)) := by
      rw [heff.1]
      by_cases hany : cache.any (cacheRowMatches job.user_id
          (cacheKeyFor md5hex job.user_id job.context_data))
      · rcases List.any_eq_true.mp hany with ⟨r, hr, hm⟩
        rw [if_pos hany]
        exact List.countP_pos_iff.mpr ⟨r, hr, hm⟩
      · rw [if_neg hany]
        omega
    rcases List.countP_pos_iff.mp hpos with ⟨r, hr, hm⟩
    have := heff.2 r hr hm
    rw [hconf] at this
    exact ⟨r, hr, hm, this.1, this.2.1, this.2.2.1⟩
  · exact hret
  · -- the queue table after the two status updates
    show update_job_status now job.id JobStatus.completed
        (some ((store_in_page_cache md5hex now cache_id job.user_id comps
          job.context_data cache).2))
        (update_job_status now job.id JobStatus.processing none table) = _
    unfold update_job_status
    rw [List.map_map]
    refine List.map_congr_left fun r _ => ?_
    by_cases hid : r.id = job.id
    · simp only [Function.comp, applyStatusUpdate, hid, if_pos rfl,
        Option.getD_none, ne_eq, not_true_eq_false, if_false, if_pos rfl,
        reduceIte]
      rw [Option.getD_some, if_pos hretne]
      rfl
    · simp [Function.comp, applyStatusUpdate, hid]

/-- Concrete check of the amended C5: processing the movies job against an
empty cache stores one matching cache row with the candidate confidence
and a 30-minute window, and completes the job with the fresh cache row id
as result key. -/
theorem process_job_success_spec_witness :
    (["comp"] : List String) ≠ [] ∧
    jobGen.context_data.confidence = some (1 / 2) ∧
    (∃ r ∈ (process_job_success md5Const 5 "cid-w" jobGen ["comp"] [jobGen]
        []).2.1,
      cacheRowMatches jobGen.user_id
          (cacheKeyFor md5Const jobGen.user_id jobGen.context_data) r =
        true ∧
        r.components = ["comp"] ∧ r.relevance_score = 1 / 2 ∧
        r.valid_until = 5 + 30) ∧
    (process_job_success md5Const 5 "cid-w" jobGen ["comp"] [jobGen]
      []).2.2 = "cid-w" := by
  have h := process_job_success_spec md5Const 5 "cid-w" jobGen ["comp"]
    [jobGen] [] (1 / 2) (by decide) rfl (by decide) (by decide)
  refine ⟨by decide, rfl, h.1, ?_⟩
  rw [h.2.1]
  decide

lemma applyStatusUpdate_id (now : Int) (jid : String) (st : JobStatus)
    (k : Option String) (j : Job) :
    (applyStatusUpdate now jid st k j).id = j.id := by
  unfold applyStatusUpdate
  repeat' split
  all_goals rfl

lemma applyStatusUpdate_attempts (now : Int) (jid : String) (st : JobStatus)
    (k : Option String) (j : Job) :
    (applyStatusUpdate now jid st k j).attempts = j.attempts := by
  unfold applyStatusUpdate
  repeat' split
  all_goals rfl

lemma applyStatusUpdate_ne (now : Int) (jid : String) (st : JobStatus)
    (k : Option String) {j : Job} (h : j.id ≠ jid) :
    applyStatusUpdate now jid st k j = j := by
  unfold applyStatusUpdate
  rw [if_neg h]

lemma applyFailure_id (now : Int) (job : Job) (msg : String) (j : Job) :
    (applyFailure now job msg j).id = j.id := by
  by_cases hM : MAX_ATTEMPTS ≤ job.attempts + 1 <;>
    by_cases hid : j.id = job.id <;> simp [applyFailure, hM, hid]

lemma applyFailure_ne (now : Int) (job : Job) (msg : String) {j : Job}
    (h : j.id ≠ job.id) : applyFailure now job msg j = j := by
  by_cases hM : MAX_ATTEMPTS ≤ job.attempts + 1 <;>
    simp [applyFailure, hM, h]

lemma applyFailure_attempts (now : Int) (job : Job) (msg : String) (j : Job) :
    (applyFailure now job msg j).attempts =
      if j.id = job.id then job.attempts + 1 else j.attempts := by
  unfold applyFailure
  by_cases hM : MAX_ATTEMPTS ≤ job.attempts + 1 <;>
    by_cases hid : j.id = job.id <;> simp [hM, hid]

lemma update_job_status_map_id (now : Int) (jid : String) (st : JobStatus)
    (k : Option String) (t : List Job) :
    (update_job_status now jid st k t).map Job.id = t.map Job.id := by
  unfold update_job_status
  rw [List.map_map]
  exact List.map_congr_left fun j _ => applyStatusUpdate_id now jid st k j

lemma handle_job_failure_map_id (now : Int) (job : Job) (msg : String)
    (t : List Job) :
    (handle_job_failure now job msg t).map Job.id = t.map Job.id := by
  unfold handle_job_failure
  rw [List.map_map]
  exact List.map_congr_left fun j _ => applyFailure_id now job msg j

/-- Ids are preserved by any consumer operation. -/
lemma consumerStep_map_id {now : Int} {t t' : List Job}
    (hs : ConsumerStep now t t') : t'.map Job.id = t.map Job.id := by
  cases hs with
  | claim j h => exact update_job_status_map_id ..
  | complete j key hkey h =>
      rw [update_job_status_map_id, update_job_status_map_id]
  | fail j msg h =>
      rw [handle_job_failure_map_id, update_job_status_map_id]

/-- Each row of the table after one consumer operation descends from a row
of the same id before it, with an attempt count that did not decrease and
that either stayed put or stayed within `MAX_ATTEMPTS`. -/
lemma consumerStep_attempts {now : Int} {t t' : List Job}
    (hs : ConsumerStep now t t') (hnd : (t.map Job.id).Nodup) :
    ∀ r' ∈ t', ∃ r ∈ t, r.id = r'.id ∧ r.attempts ≤ r'.attempts ∧
      (r'.attempts = r.attempts ∨ r'.attempts ≤ MAX_ATTEMPTS) := by
  cases hs with
  | claim j h =>
      intro r' hr'
      obtain ⟨r, hr, rfl⟩ := List.mem_map.mp hr'
      exact ⟨r, hr, (applyStatusUpdate_id ..).symm,
        le_of_eq (applyStatusUpdate_attempts ..).symm,
        Or.inl (applyStatusUpdate_attempts ..)⟩
  | complete j key hkey h =>
      intro r' hr'
      obtain ⟨r₁, hr₁, rfl⟩ := List.mem_map.mp hr'
      obtain ⟨r, hr, rfl⟩ := List.mem_map.mp hr₁
      refine ⟨r, hr, ?_, ?_, Or.inl ?_⟩
      · rw [applyStatusUpdate_id, applyStatusUpdate_id]
      · rw [applyStatusUpdate_attempts, applyStatusUpdate_attempts]
      · rw [applyStatusUpdate_attempts, applyStatusUpdate_attempts]
  | fail j msg h =>
      intro r' hr'
      obtain ⟨r₁, hr₁, rfl⟩ := List.mem_map.mp hr'
      obtain ⟨r, hr, rfl⟩ := List.mem_map.mp hr₁
      have hjmem := (mem_get_pending_jobs h).1
      have hjatt : j.attempts < MAX_ATTEMPTS :=
        (jobEligible_iff.mp (mem_get_pending_jobs h).2).2.2.2
      have hatt : (applyFailure now j msg
          (applyStatusUpdate now j.id JobStatus.processing none r)).attempts =
          if r.id = j.id then j.attempts + 1 else r.attempts := by
        rw [applyFailure_attempts, applyStatusUpdate_id,
          applyStatusUpdate_attempts]
      have hid : (applyFailure now j msg
          (applyStatusUpdate now j.id JobStatus.processing none r)).id =
          r.id := by
        rw [applyFailure_id, applyStatusUpdate_id]
      by_cases hr_j : r.id = j.id
      · have hrj : r = j := List.inj_on_of_nodup_map hnd hr hjmem hr_j
        refine ⟨r, hr, hid.symm, ?_, Or.inr ?_⟩
        · rw [hatt, if_pos hr_j, hrj]
          omega
        · rw [hatt, if_pos hr_j]
          omega
      · refine ⟨r, hr, hid.symm, ?_, Or.inl ?_⟩
        · rw [hatt, if_neg hr_j]
        · rw [hatt, if_neg hr_j]

/-- A failed row is never the target of a consumer operation: every
operation targets a job taken from `get_pending_jobs`, which only returns
queued rows, and ids are unique. -/
lemma consumerStep_failed_frozen {now : Int} {t t' : List Job}
    (hs : ConsumerStep now t t') (hnd : (t.map Job.id).Nodup) {r : Job}
    (hr : r ∈ t) (hrf : r.status = JobStatus.failed) : r ∈ t' := by
  cases hs with
  | claim j h =>
      have hq : j.status = JobStatus.queued :=
        (jobEligible_iff.mp (mem_get_pending_jobs h).2).1
      have hne : r.id ≠ j.id := by
        intro he
        rw [List.inj_on_of_nodup_map hnd hr (mem_get_pending_jobs h).1 he,
          hq] at hrf
        exact JobStatus.noConfusion hrf
      have : applyStatusUpdate now j.id JobStatus.processing none r = r :=
        applyStatusUpdate_ne now j.id JobStatus.processing none hne
      rw [update_job_status, ← this]
      exact List.mem_map_of_mem _ hr
  | complete j key hkey h =>
      have hq : j.status = JobStatus.queued :=
        (jobEligible_iff.mp (mem_get_pending_jobs h).2).1
      have hne : r.id ≠ j.id := by
        intro he
        rw [List.inj_on_of_nodup_map hnd hr (mem_get_pending_jobs h).1 he,
          hq] at hrf
        exact JobStatus.noConfusion hrf
      have h1 : applyStatusUpdate now j.id JobStatus.processing none r = r :=
        applyStatusUpdate_ne now j.id JobStatus.processing none hne
      have h2 : applyStatusUpdate now j.id JobStatus.completed (some key) r =
          r := applyStatusUpdate_ne now j.id JobStatus.completed (some key) hne
      unfold update_job_status
      rw [List.map_map]
      have : (applyStatusUpdate now j.id JobStatus.completed (some key) ∘
          applyStatusUpdate now j.id JobStatus.processing none) r = r := by
        simp [Function.comp, h1, h2]
      rw [← this]
      exact List.mem_map_of_mem _ hr
  | fail j msg h =>
      have hq : j.status = JobStatus.queued :=
        (jobEligible_iff.mp (mem_get_pending_jobs h).2).1
      have hne : r.id ≠ j.id := by
        intro he
        rw [List.inj_on_of_nodup_map hnd hr (mem_get_pending_jobs h).1 he,
          hq] at hrf
        exact JobStatus.noConfusion hrf
      have h1 : applyStatusUpdate now j.id JobStatus.processing none r = r :=
        applyStatusUpdate_ne now j.id JobStatus.processing none hne
      have hne' : r.id ≠ j.id := hne
      unfold handle_job_failure update_job_status
      rw [List.map_map]
      have : (applyFailure now j msg ∘
          applyStatusUpdate now j.id JobStatus.processing none) r = r := by
        simp only [Function.comp, h1]
        exact applyFailure_ne now j msg hne'
      rw [← this]
      exact List.mem_map_of_mem _ hr

/-- Invariant carried along any sequence of consumer operations: ids are
preserved, every row descends from a same-id row without losing attempts
(and either with unchanged attempts or within the cap), and failed rows
persist untouched. -/
lemma consumerSteps_invariant {t t' : List Job} (hsteps : ConsumerSteps t t')
    (hnd : (t.map Job.id).Nodup) :
    t'.map Job.id = t.map Job.id ∧
    (∀ r' ∈ t', ∃ r ∈ t, r.id = r'.id ∧ r.attempts ≤ r'.attempts ∧
      (r'.attempts = r.attempts ∨ r'.attempts ≤ MAX_ATTEMPTS)) ∧
    (∀ r ∈ t, r.status = JobStatus.failed → r ∈ t') := by
  induction hsteps with
  | refl =>
      exact ⟨rfl, fun r' h => ⟨r', h, rfl, le_refl _, Or.inl rfl⟩,
        fun r h _ => h⟩
  | tail hab hbc ih =>
      obtain ⟨now, hstep⟩ := hbc
      have hndb := ih.1.symm ▸ hnd
      refine ⟨(consumerStep_map_id hstep).trans ih.1, ?_, ?_⟩
      · intro r'' hr''
        obtain ⟨r', hr', hid', hle', hor'⟩ :=
          consumerStep_attempts hstep hndb r'' hr''
        obtain ⟨r, hr, hid, hle, hor⟩ := ih.2.1 r' hr'
        refine ⟨r, hr, hid.trans hid', hle.trans hle', ?_⟩
        rcases hor' with he' | hb'
        · rcases hor with he | hb
          · exact Or.inl (he'.trans he)
          · exact Or.inr (he' ▸ hb)
        · exact Or.inr hb'
      · intro r hr hrf
        exact consumerStep_failed_frozen hstep hndb (ih.2.2 r hr hrf) hrf

/-- Claim C7: over any sequence of consumer claim/resolve operations on a
table with unique ids whose attempt counts start within the cap, every
attempt count of every row is monotonically non-decreasing and never exceeds
`MAX_ATTEMPTS`; and a row that reached `attempts = MAX_ATTEMPTS` with
status failed persists unchanged and is never claimed again (no
`get_pending_jobs` result ever contains its id). -/
theorem attempts_monotone_bounded (t t' : List Job)
    (hsteps : ConsumerSteps t t') (hnd : (t.map Job.id).Nodup)
    (hb : ∀ r ∈ t, r.attempts ≤ MAX_ATTEMPTS) :
    (∀ r' ∈ t', ∃ r ∈ t, r.id = r'.id ∧ r.attempts ≤ r'.attempts) ∧
    (∀ r' ∈ t', r'.attempts ≤ MAX_ATTEMPTS) ∧
    (∀ r ∈ t, r.attempts = MAX_ATTEMPTS → r.status = JobStatus.failed →
      r ∈ t' ∧
        ∀ (now : Int) (j : Job), j ∈ get_pending_jobs now t' →
          j.id ≠ r.id) := by
  obtain ⟨hmap, hdesc, hfrozen⟩ := consumerSteps_invariant hsteps hnd
  have hnd' : (t'.map Job.id).Nodup := by
    rw [hmap]
    exact hnd
  refine ⟨?_, ?_, ?_⟩
  · intro r' hr'
    obtain ⟨r, hr, hid, hle, -⟩ := hdesc r' hr'
    exact ⟨r, hr, hid, hle⟩
  · intro r' hr'
    obtain ⟨r, hr, -, -, hor⟩ := hdesc r' hr'
    rcases hor with he | hbnd
    · exact he ▸ hb r hr
    · exact hbnd
  · intro r hr hmax hrf
    have hr' : r ∈ t' := hfrozen r hr hrf
    refine ⟨hr', ?_⟩
    intro now j hj hid
    have hjmem : j ∈ t' := (mem_get_pending_jobs hj).1
    have hq : j.status = JobStatus.queued :=
      (jobEligible_iff.mp (mem_get_pending_jobs hj).2).1
    rw [List.inj_on_of_nodup_map hnd' hjmem hr' hid, hrf] at hq
    exact JobStatus.noConfusion hq

/-- Row `jobA` qualifies for claiming at time 0 in a singleton table (membership
shown directly from the selection definition, for the C7 witness). -/
lemma jobA_mem_pending : jobA ∈ get_pending_jobs 0 [jobA] := by
  unfold get_pending_jobs
  rw [List.take_of_length_le (by rw [List.length_mergeSort]; decide)]
  exact List.mem_mergeSort.mpr (by decide)

/-- Concrete check of C7: one failure step on a one-row table keeps the
attempt count within the cap and descending from the original row. -/
theorem attempts_monotone_bounded_witness :
    (∀ r' ∈ handle_job_failure 0 jobA "err"
        (update_job_status 0 jobA.id JobStatus.processing none [jobA]),
      r'.attempts ≤ MAX_ATTEMPTS) ∧
    (∀ r' ∈ handle_job_failure 0 jobA "err"
        (update_job_status 0 jobA.id JobStatus.processing none [jobA]),
      ∃ r ∈ [jobA], r.id = r'.id ∧ r.attempts ≤ r'.attempts) := by
  have hsteps : ConsumerSteps [jobA]
      (handle_job_failure 0 jobA "err"
        (update_job_status 0 jobA.id JobStatus.processing none [jobA])) :=
    Relation.ReflTransGen.tail Relation.ReflTransGen.refl
      ⟨0, ConsumerStep.fail jobA "err" jobA_mem_pending⟩
  have h := attempts_monotone_bounded [jobA] _ hsteps (by decide) (by decide)
  exact ⟨h.2.1, h.1⟩

/-- When a candidate passes the confidence gate, its trigger time parses (or
defaults), and neither dedup check fires, `queue_prediction_step` inserts
exactly the work item built by the `INSERT` of `queue_predictions`. -/
lemma queue_prediction_step_inserts (parseIso : String → Option Int)
    (md5hex : String → String) (now : Int) (queue_id user_id : String)
    (p : Pattern) (st : SchedState) (t : Int)
    (hconf : ¬ p.confidence.getD 0 < QUEUE_CONFIDENCE)
    (hpar : parsedTrigger parseIso now p = some t)
    (hq : queue_dedup_hit now user_id p.predicted_action st.queue = false)
    (hc : ¬ (p.predicted_query.getD "" ≠ "" ∧
      cache_dedup_hit md5hex now user_id (p.predicted_query.getD "")
        st.cache = true)) :
    queue_prediction_step parseIso md5hex now queue_id user_id p st =
      { st with queue :=
          { id := queue_id, user_id := user_id, job_type := "prediction",
            priority := pyInt (p.confidence.getD 0 * 100),
            predicted_need := p.predicted_action, context_data := p,
            scheduled_for := t, valid_until := t + 60,
            status := JobStatus.queued, attempts := 0,
            result_cache_key := none, error_message := none,
            started_at := none, completed_at := none,
            created_at := now } :: st.queue } := by
  unfold queue_prediction_step
  rw [if_neg hconf, hpar]
  rw [hq]
  simp only [Bool.false_eq_true, if_false]
  rw [if_neg hc]

/-- An absent (or empty) stated trigger time defaults to now + 30 minutes. -/
lemma parsedTrigger_default (parseIso : String → Option Int) (now : Int)
    (p : Pattern) (h : p.trigger_time.getD "" = "") :
    parsedTrigger parseIso now p = some (now + 30) := by
  unfold parsedTrigger
  rw [h]
  simp

/-- Claim C8 as amended: an accepted candidate passing the threshold and
both dedup checks yields a work item with `priority` equal to the Python
`int()` truncation of `confidence * 100` (not the rounding the claim
states), `scheduled_for = trigger_time`, `valid_until = trigger_time + 60`
minutes, status queued, and attempts 0. -/
theorem queued_item_fields (parseIso : String → Option Int)
    (md5hex : String → String) (now : Int) (queue_id user_id : String)
    (p : Pattern) (st : SchedState) (c : ℚ) (t : Int)
    (hconf : p.confidence = some c) (hth : ¬ c < QUEUE_CONFIDENCE)
    (hpar : parsedTrigger parseIso now p = some t)
    (hq : queue_dedup_hit now user_id p.predicted_action st.queue = false)
    (hc : ¬ (p.predicted_query.getD "" ≠ "" ∧
      cache_dedup_hit md5hex now user_id (p.predicted_query.getD "")
        st.cache = true)) :
    (queue_prediction_step parseIso md5hex now queue_id user_id p st).queue =
      { id := queue_id, user_id := user_id, job_type := "prediction",
        priority := pyInt (c * 100), predicted_need := p.predicted_action,
        context_data := p, scheduled_for := t, valid_until := t + 60,
        status := JobStatus.queued, attempts := 0, result_cache_key := none,
        error_message := none, started_at := none, completed_at := none,
        created_at := now } :: st.queue := by
  rw [queue_prediction_step_inserts parseIso md5hex now queue_id user_id p st
    t (by simp only [hconf, Option.getD_some]; exact hth) hpar hq hc]
  simp only [hconf, Option.getD_some]

/-- Concrete check of the amended C8 (and of the spec example): confidence
0.85 yields priority 85, with `scheduled_for` the defaulted trigger time
and a one-hour validity window. -/
theorem queued_item_fields_witness :
    (queue_prediction_step (fun _ => none) md5Const 100 "q1" "u" p85
        ⟨[], []⟩).queue.map Job.priority = [85] ∧
    (queue_prediction_step (fun _ => none) md5Const 100 "q1" "u" p85
        ⟨[], []⟩).queue.map Job.scheduled_for = [130] ∧
    (queue_prediction_step (fun _ => none) md5Const 100 "q1" "u" p85
        ⟨[], []⟩).queue.map Job.valid_until = [190] ∧
    (queue_prediction_step (fun _ => none) md5Const 100 "q1" "u" p85
        ⟨[], []⟩).queue.map Job.status = [JobStatus.queued] ∧
    (queue_prediction_step (fun _ => none) md5Const 100 "q1" "u" p85
        ⟨[], []⟩).queue.map Job.attempts = [0] := by
  rw [queued_item_fields (fun _ => none) md5Const 100 "q1" "u" p85 ⟨[], []⟩
    (17 / 20) 130 rfl (by norm_num [QUEUE_CONFIDENCE])
    (by decide) (by decide) (by simp [p85])]
  refine ⟨?_, by simp, by simp, by simp, by simp⟩
  simp only [List.map_cons, List.map_nil, List.cons.injEq, and_true]
  norm_num [pyInt]

/-- Claim C8, refuted at a concrete input: the code computes the priority
with Python `int()`, which truncates; at confidence 0.855 the inserted
priority is 85 while `round(0.855 * 100) = 86`. -/
theorem queued_item_priority_counterexample :
    (queue_prediction_step (fun _ => none) md5Const 100 "q1" "u" p855
        ⟨[], []⟩).queue.map Job.priority = [85] ∧
    round (((171 : ℚ) / 200) * 100) = 86 ∧ (85 : Int) ≠ 86 := by
  refine ⟨?_, by norm_num [round_eq], by decide⟩
  rw [queue_prediction_step_inserts (fun _ => none) md5Const 100 "q1" "u"
    p855 ⟨[], []⟩ 130 (by norm_num [p855, QUEUE_CONFIDENCE])
    (by decide) (by decide) (by simp [p855])]
  simp only [List.map_cons, List.map_nil, List.cons.injEq, and_true]
  norm_num [p855, pyInt]

/-- Claim C9 as amended: a candidate whose stated trigger time is absent
(or empty) is processed with the default trigger time of now + 30 minutes
and, when it passes the other checks, enqueued with
`scheduled_for = now + 30`. -/
theorem trigger_default_when_absent (parseIso : String → Option Int)
    (md5hex : String → String) (now : Int) (queue_id user_id : String)
    (p : Pattern) (st : SchedState)
    (htrig : p.trigger_time.getD "" = "")
    (hconf : ¬ p.confidence.getD 0 < QUEUE_CONFIDENCE)
    (hq : queue_dedup_hit now user_id p.predicted_action st.queue = false)
    (hc : ¬ (p.predicted_query.getD "" ≠ "" ∧
      cache_dedup_hit md5hex now user_id (p.predicted_query.getD "")
        st.cache = true)) :
    (queue_prediction_step parseIso md5hex now queue_id user_id p st).queue =
      { id := queue_id, user_id := user_id, job_type := "prediction",
        priority := pyInt (p.confidence.getD 0 * 100),
        predicted_need := p.predicted_action, context_data := p,
        scheduled_for := now + 30, valid_until := now + 30 + 60,
        status := JobStatus.queued, attempts := 0, result_cache_key := none,
        error_message := none, started_at := none, completed_at := none,
        created_at := now } :: st.queue := by
  rw [queue_prediction_step_inserts parseIso md5hex now queue_id user_id p st
    (now + 30) hconf (parsedTrigger_default parseIso now p htrig) hq hc]

/-- Concrete check of the amended C9: the absent trigger time of `p85`
defaults to 100 + 30. -/
theorem trigger_default_when_absent_witness :
    (queue_prediction_step (fun _ => none) md5Const 100 "q3" "u" p85
        ⟨[], []⟩).queue.map Job.scheduled_for = [130] := by
  rw [trigger_default_when_absent (fun _ => none) md5Const 100 "q3" "u" p85
    ⟨[], []⟩ rfl (by norm_num [p85, QUEUE_CONFIDENCE]) (by decide)
    (by simp [p85])]
  simp

/-- Claim C9, refuted at a concrete input: a present but unparseable
trigger time is not defaulted — `datetime.fromisoformat` raises, the
enclosing `except` catches and continues, and the candidate is dropped:
the queue stays empty although the candidate passes the confidence gate
and both dedup checks. -/
theorem unparseable_trigger_drops_counterexample :
    queue_prediction_step (fun _ => none) md5Const 100 "q1" "u" pBadTrig
        ⟨[], []⟩ = ⟨[], []⟩ ∧
    ¬ (pBadTrig.confidence.getD 0 < QUEUE_CONFIDENCE) ∧
    queue_dedup_hit 100 "u" pBadTrig.predicted_action [] = false := by
  refine ⟨?_, by norm_num [pBadTrig, QUEUE_CONFIDENCE], by decide⟩
  unfold queue_prediction_step
  rw [if_neg (by norm_num [pBadTrig, QUEUE_CONFIDENCE])]
  rfl

/-- Claim C10: when `predicted_query` is absent or empty the admission step
skips the cache dedup check entirely — its queue outcome is independent of
the cache contents; when the field is absent the consumer falls back to
fingerprinting the predicted action; and concretely a candidate without
`predicted_query` is enqueued even though a live cache row already sits
under the very key the consumer will later write. -/
theorem empty_query_skips_cache_dedup :
    (∀ (parseIso : String → Option Int) (md5hex : String → String)
      (now : Int) (queue_id user_id : String) (p : Pattern) (q : List Job)
      (c₁ c₂ : List CacheRow),
      p.predicted_query.getD "" = "" →
      (queue_prediction_step parseIso md5hex now queue_id user_id p
        ⟨q, c₁⟩).queue =
      (queue_prediction_step parseIso md5hex now queue_id user_id p
        ⟨q, c₂⟩).queue) ∧
    (∀ (md5hex : String → String) (user_id : String) (p : Pattern),
      p.predicted_query = none →
      cacheKeyFor md5hex user_id p =
        generate_cache_key_generator md5hex user_id
          (p.predicted_action.getD "")) ∧
    ((queue_prediction_step (fun _ => none) md5Const 0 "q1" "u" pNoQuery
        ⟨[], [liveRow]⟩).queue.length = 1 ∧
      liveRow.cache_key = cacheKeyFor md5Const "u" pNoQuery ∧
      liveRow.user_id = "u" ∧ (0 : Int) < liveRow.valid_until) := by
  refine ⟨?_, ?_, ?_, by decide, by decide, by decide⟩
  · intro parseIso md5hex now queue_id user_id p q c₁ c₂ h
    unfold queue_prediction_step
    by_cases hconf : p.confidence.getD 0 < QUEUE_CONFIDENCE
    · rw [if_pos hconf, if_pos hconf]
    · rw [if_neg hconf, if_neg hconf]
      cases hpar : parsedTrigger parseIso now p with
      | none => rfl
      | some t =>
          dsimp only
          by_cases hq : queue_dedup_hit now user_id p.predicted_action q
          · simp only [hq, if_true]
          · simp only [hq, Bool.false_eq_true, if_false]
            rw [if_neg (by simp [h]), if_neg (by simp [h])]
  · intro md5hex user_id p h
    simp [cacheKeyFor, generatorQuery, h]
  · rw [queue_prediction_step_inserts (fun _ => none) md5Const 0 "q1" "u"
      pNoQuery ⟨[], [liveRow]⟩ 30
      (by norm_num [pNoQuery, QUEUE_CONFIDENCE]) (by decide) (by decide)
      (by simp [pNoQuery])]
    rfl

/-- Concrete check of C10: for the no-query candidate the admission outcome
with a live conflicting cache row equals the outcome with an empty cache,
and the consumer-side key for it is the fingerprint of the predicted
action. -/
theorem empty_query_skips_cache_dedup_witness :
    (queue_prediction_step (fun _ => none) md5Const 0 "q2" "u" pNoQuery
        ⟨[], []⟩).queue =
      (queue_prediction_step (fun _ => none) md5Const 0 "q2" "u" pNoQuery
        ⟨[], [liveRow]⟩).queue ∧
    cacheKeyFor md5Const "u" pNoQuery =
      generate_cache_key_generator md5Const "u"
        (pNoQuery.predicted_action.getD "") :=
  ⟨empty_query_skips_cache_dedup.1 (fun _ => none) md5Const 0 "q2" "u"
      pNoQuery [] [] [liveRow] rfl,
   empty_query_skips_cache_dedup.2.1 md5Const "u" pNoQuery rfl⟩

end Ambia
